import Mathlib

/-!
# Verification of the newsapi-backend content-intelligence pipeline

Shallow embedding of the pipeline components of `app/services/topic_analyzer.py`,
`app/services/semantic_grouper.py`, `app/services/article_analyzer.py`,
`app/services/llm_client.py` and the ranking endpoint in `app/routes/topics.py`,
together with theorems settling the frozen claims about them.

Conventions used throughout:
* Python floats are modelled by `ℚ` (all the arithmetic in these code paths is
  exact on the inputs considered).
* Python strings are modelled by `List Char` (Python indexes/slices strings by
  code point, exactly as `List Char` does).
* Rational division of machine integers is written `Rat.divInt` (definitionally
  equal to `(· : ℚ) / (· : ℚ)` — see `calculate_similarity_eq_div` — but it
  evaluates inside the kernel, which plain `/` on `ℚ` does not).
* Database queries are modelled by passing the query's result list explicitly;
  external completion-service ("LLM") calls are modelled by an explicit outcome
  parameter.
-/

namespace NewsApi

/-! ## `TopicAnalyzer.calculate_similarity` (topic_analyzer.py lines 89-96)

```python
if not keywords1 or not keywords2:
    return 0.0
intersection = len(keywords1 & keywords2)
union = len(keywords1 | keywords2)
return intersection / union if union > 0 else 0.0
```
Keyword sets are Python `set`s of strings; we model them as `Finset α` over an
arbitrary decidable-equality type of keywords. -/
def calculate_similarity {α : Type} [DecidableEq α] (keywords1 keywords2 : Finset α) : ℚ :=
  if keywords1 = ∅ ∨ keywords2 = ∅ then 0
  else
    let intersection : ℕ := (keywords1 ∩ keywords2).card
    let union : ℕ := (keywords1 ∪ keywords2).card
    if 0 < union then Rat.divInt intersection union else 0

/-- The `Rat.divInt` in `calculate_similarity` is literally the division
`intersection / union` performed by the Python source. -/
theorem calculate_similarity_eq_div {α : Type} [DecidableEq α]
    (keywords1 keywords2 : Finset α) :
    calculate_similarity keywords1 keywords2 =
      if keywords1 = ∅ ∨ keywords2 = ∅ then 0
      else if 0 < (keywords1 ∪ keywords2).card then
        ((keywords1 ∩ keywords2).card : ℚ) / ((keywords1 ∪ keywords2).card : ℚ)
      else 0 := by
  simp only [calculate_similarity, Rat.divInt_eq_div, Int.cast_natCast]

/-- C8: the Jaccard similarity of `calculate_similarity` is symmetric,
`sim(∅, X) = 0` for every `X`, and `sim(A, A) = 1` for every nonempty `A`. -/
theorem C8_jaccard_properties {α : Type} [DecidableEq α] (A B X : Finset α) (hA : A ≠ ∅) :
    calculate_similarity A B = calculate_similarity B A ∧
    calculate_similarity (∅ : Finset α) X = 0 ∧
    calculate_similarity A A = 1 := by
  refine ⟨?_, ?_, ?_⟩
  · simp only [calculate_similarity, Finset.inter_comm A B, Finset.union_comm A B, or_comm]
  · simp [calculate_similarity]
  · have hcard : 0 < A.card := Finset.card_pos.mpr (Finset.nonempty_iff_ne_empty.mpr hA)
    simp only [calculate_similarity, Finset.inter_self, Finset.union_self, hA, or_self,
      if_false, hcard, if_true]
    exact Rat.divInt_self' (by exact_mod_cast hcard.ne')

/-- Witness for C8 at `A = {1}`, `B = {2}`, `X = {3}` over `ℕ`. -/
theorem C8_jaccard_properties_witness :
    ({1} : Finset ℕ) ≠ ∅ ∧
    (calculate_similarity ({1} : Finset ℕ) {2} = calculate_similarity {2} {1} ∧
      calculate_similarity (∅ : Finset ℕ) {3} = 0 ∧
      calculate_similarity ({1} : Finset ℕ) {1} = 1) :=
  ⟨by decide, C8_jaccard_properties {1} {2} {3} (by decide)⟩

/-! ## `TopicAnalyzer.cluster_articles` (topic_analyzer.py lines 204-256)

The database query (articles fetched in the lookback window, ordered by
`published_at` descending) and the keyword extraction are modelled by handing
the function its input directly: a list of articles, each reduced to an
identifier and its extracted keyword set, in `published_at`-descending order —
exactly the data the greedy loop operates on. -/

/-- An article as seen by the clusterer: its id and its keyword set
(`set(TopicAnalyzer.extract_keywords(text, 15))`). -/
structure KwArticle (α : Type) where
  id : ℕ
  kws : Finset α
  deriving DecidableEq

/-- A cluster under construction / in the result: its member articles in join
order and the growing keyword union (`cluster`, `cluster_keywords`). -/
structure Cluster (α : Type) where
  members : List (KwArticle α)
  kws : Finset α
  deriving DecidableEq

/-- The inner loop of `cluster_articles`: scan the not-yet-clustered articles
`rest` in order, absorbing each whose similarity to the current, growing
cluster-keyword union meets the threshold:

```python
for other in articles:
    if other.id in clustered_ids:
        continue
    similarity = TopicAnalyzer.calculate_similarity(cluster_keywords, article_keywords[other.id])
    if similarity >= similarity_threshold:
        cluster.append(other)
        cluster_keywords |= article_keywords[other.id]
        clustered_ids.add(other.id)
```

Returns the finished cluster members, their keyword union, and the articles
left unclustered (in their original order). -/
def growCluster {α : Type} [DecidableEq α] (thr : ℚ) :
    List (KwArticle α) → Finset α → List (KwArticle α) →
    List (KwArticle α) × Finset α × List (KwArticle α)
  | mem, kws, [] => (mem, kws, [])
  | mem, kws, a :: rest =>
    if thr ≤ calculate_similarity kws a.kws then
      growCluster thr (mem ++ [a]) (kws ∪ a.kws) rest
    else
      let r := growCluster thr mem kws rest
      (r.1, r.2.1, a :: r.2.2)

/-- The outer loop of `cluster_articles`: each not-yet-clustered article seeds
a new cluster (`cluster = [article]`, `cluster_keywords = article_keywords[article.id].copy()`)
which then grows over the remaining unclustered articles.  Articles already
absorbed are skipped, so the loop is equivalent to recursing on the
unabsorbed remainder; `fuel` (instantiated with the list length) makes the
recursion structural. -/
def clusterLoop {α : Type} [DecidableEq α] : ℕ → ℚ → List (KwArticle α) → List (Cluster α)
  | 0, _, _ => []
  | _, _, [] => []
  | fuel + 1, thr, a :: rest =>
    let r := growCluster thr [a] a.kws rest
    ⟨r.1, r.2.1⟩ :: clusterLoop fuel thr r.2.2

/-- `TopicAnalyzer.cluster_articles`, as a function of the queried articles
(already keyword-extracted, `published_at`-descending) and the similarity
threshold. -/
def cluster_articles {α : Type} [DecidableEq α] (thr : ℚ) (articles : List (KwArticle α)) :
    List (Cluster α) :=
  clusterLoop articles.length thr articles

/-- The seed members survive into the finished cluster: the inner loop only
appends to `cluster`. -/
theorem growCluster_mem_subset {α : Type} [DecidableEq α] (thr : ℚ) :
    ∀ (rest mem : List (KwArticle α)) (kws : Finset α),
      mem ⊆ (growCluster thr mem kws rest).1
  | [], mem, kws => by simp [growCluster]
  | a :: rest, mem, kws => by
    unfold growCluster
    by_cases h : thr ≤ calculate_similarity kws a.kws
    · simp only [h, if_true]
      exact fun x hx =>
        growCluster_mem_subset thr rest (mem ++ [a]) (kws ∪ a.kws)
          (List.mem_append_left _ hx)
    · simp only [h, if_false]
      exact growCluster_mem_subset thr rest mem kws

/-- The inner loop neither invents nor drops articles: finished cluster plus
unabsorbed remainder is a permutation of seed plus scanned articles. -/
theorem growCluster_perm {α : Type} [DecidableEq α] (thr : ℚ) :
    ∀ (rest mem : List (KwArticle α)) (kws : Finset α),
      ((growCluster thr mem kws rest).1 ++ (growCluster thr mem kws rest).2.2).Perm
        (mem ++ rest)
  | [], mem, kws => by simp [growCluster]
  | a :: rest, mem, kws => by
    unfold growCluster
    by_cases h : thr ≤ calculate_similarity kws a.kws
    · simp only [h, if_true]
      have ih := growCluster_perm thr rest (mem ++ [a]) (kws ∪ a.kws)
      rw [List.append_cons mem a rest]
      exact ih
    · simp only [h, if_false]
      have ih := growCluster_perm thr rest mem kws
      exact (List.perm_middle.trans (ih.cons a)).trans List.perm_middle.symm

/-- The unabsorbed remainder is no longer than the scanned list. -/
theorem growCluster_rem_length {α : Type} [DecidableEq α] (thr : ℚ) :
    ∀ (rest mem : List (KwArticle α)) (kws : Finset α),
      (growCluster thr mem kws rest).2.2.length ≤ rest.length
  | [], mem, kws => by simp [growCluster]
  | a :: rest, mem, kws => by
    unfold growCluster
    by_cases h : thr ≤ calculate_similarity kws a.kws
    · simp only [h, if_true]
      exact (growCluster_rem_length thr rest (mem ++ [a]) (kws ∪ a.kws)).trans
        (Nat.le_succ _)
    · simp only [h, if_false, List.length_cons]
      exact Nat.succ_le_succ (growCluster_rem_length thr rest mem kws)

/-- Every article of the input ends up in the concatenation of the produced
clusters exactly as often as it occurs in the input (here: as a permutation). -/
theorem clusterLoop_flatten_perm {α : Type} [DecidableEq α] (thr : ℚ) :
    ∀ (fuel : ℕ) (l : List (KwArticle α)), l.length ≤ fuel →
      ((clusterLoop fuel thr l).flatMap Cluster.members).Perm l
  | 0, l, h => by
    have : l = [] := List.eq_nil_of_length_eq_zero (Nat.le_zero.mp h)
    subst this; simp [clusterLoop]
  | fuel + 1, [], _ => by simp [clusterLoop]
  | fuel + 1, a :: rest, h => by
    simp only [clusterLoop, List.flatMap_cons]
    have hg := growCluster_perm thr rest [a] a.kws
    have hrem : (growCluster thr [a] a.kws rest).2.2.length ≤ fuel :=
      (growCluster_rem_length thr rest [a] a.kws).trans (Nat.succ_le_succ_iff.mp h)
    have ih := clusterLoop_flatten_perm thr fuel
      (growCluster thr [a] a.kws rest).2.2 hrem
    exact (ih.append_left _).trans hg

/-- At most one cluster per input article: every cluster consumes at least its
seed. -/
theorem clusterLoop_length_le {α : Type} [DecidableEq α] (thr : ℚ) :
    ∀ (fuel : ℕ) (l : List (KwArticle α)),
      (clusterLoop fuel thr l).length ≤ l.length
  | 0, l => by simp [clusterLoop]
  | fuel + 1, [] => by simp [clusterLoop]
  | fuel + 1, a :: rest => by
    simp only [clusterLoop, List.length_cons]
    exact Nat.succ_le_succ ((clusterLoop_length_le thr fuel _).trans
      (growCluster_rem_length thr rest [a] a.kws))

/-- If an element occurs exactly once in the concatenation of the clusters'
member lists, then exactly one cluster contains it. -/
theorem countP_eq_one_of_count_flatten_one {α : Type} [DecidableEq α] (a : KwArticle α) :
    ∀ L : List (Cluster α), (L.flatMap Cluster.members).count a = 1 →
      L.countP (fun c => a ∈ c.members) = 1 := by
  intro L
  induction L with
  | nil => simp
  | cons c L ih =>
    intro h
    rw [List.flatMap_cons, List.count_append] at h
    by_cases hm : a ∈ c.members
    · have h1 : 0 < c.members.count a := List.count_pos_iff.mpr hm
      have hz : (L.flatMap Cluster.members).count a = 0 := by omega
      have hnot : ∀ c' ∈ L, a ∉ c'.members := by
        intro c' hc' hmem
        have : a ∈ L.flatMap Cluster.members := List.mem_flatMap.mpr ⟨c', hc', hmem⟩
        exact absurd (List.count_pos_iff.mpr this) (by omega)
      rw [List.countP_cons,
        List.countP_eq_zero.mpr (by intro c' hc'; simpa using hnot c' hc')]
      simp [hm]
    · have hz : c.members.count a = 0 := List.count_eq_zero.mpr hm
      rw [List.countP_cons, ih (by omega)]
      simp [hm]

/-- C7: with distinct article ids (as a database query returns), every input
article appears in exactly one output cluster (the concatenation of all
clusters is a permutation of the input, and exactly one cluster contains each
input article), and the cluster count is at most the article count. -/
theorem C7_cluster_partition {α : Type} [DecidableEq α] (thr : ℚ)
    (articles : List (KwArticle α)) (hnd : (articles.map KwArticle.id).Nodup) :
    ((cluster_articles thr articles).flatMap Cluster.members).Perm articles ∧
    (∀ a ∈ articles,
      (cluster_articles thr articles).countP (fun c => a ∈ c.members) = 1) ∧
    (cluster_articles thr articles).length ≤ articles.length := by
  have hperm : ((cluster_articles thr articles).flatMap Cluster.members).Perm articles :=
    clusterLoop_flatten_perm thr articles.length articles le_rfl
  refine ⟨hperm, ?_, clusterLoop_length_le thr articles.length articles⟩
  intro a ha
  have hndv : articles.Nodup := hnd.of_map
  have hcount : articles.count a = 1 := List.count_eq_one_of_mem hndv ha
  exact countP_eq_one_of_count_flatten_one a _ (by rw [hperm.count_eq, hcount])

/-- Members of a finished cluster come from the seed or the scanned list. -/
theorem growCluster_mem_src {α : Type} [DecidableEq α] (thr : ℚ)
    (rest mem : List (KwArticle α)) (kws : Finset α) {x : KwArticle α}
    (hx : x ∈ (growCluster thr mem kws rest).1) : x ∈ mem ++ rest :=
  (growCluster_perm thr rest mem kws).mem_iff.mp (List.mem_append_left _ hx)

/-- First-divergence argument: with the same seed and scan list and thresholds
`t1 ≤ t2`, the cluster grown at `t1` either equals the one grown at `t2` or
contains an article the `t2` cluster misses (the first article the two runs
decide differently joins at `t1` only, and is never scanned again). -/
theorem growCluster_threshold_mono {α : Type} [DecidableEq α] {t1 t2 : ℚ} (h12 : t1 ≤ t2) :
    ∀ (rest mem : List (KwArticle α)) (kws : Finset α),
      ((mem ++ rest).map KwArticle.id).Nodup →
      (growCluster t1 mem kws rest).1 = (growCluster t2 mem kws rest).1 ∨
      ∃ x, x ∈ (growCluster t1 mem kws rest).1 ∧ x ∉ (growCluster t2 mem kws rest).1
  | [], mem, kws, _ => Or.inl rfl
  | a :: rest, mem, kws, hnd => by
    by_cases h2 : t2 ≤ calculate_similarity kws a.kws
    · have h1 : t1 ≤ calculate_similarity kws a.kws := le_trans h12 h2
      simp only [growCluster, h1, h2, if_true]
      refine growCluster_threshold_mono h12 rest (mem ++ [a]) (kws ∪ a.kws) ?_
      rw [← List.append_cons]
      exact hnd
    · have hmid : a.id ∉ (mem ++ rest).map KwArticle.id ∧
          ((mem ++ rest).map KwArticle.id).Nodup := by
        have h' : (mem.map KwArticle.id ++ a.id :: rest.map KwArticle.id).Nodup := by
          simpa using hnd
        have := List.nodup_middle.mp h'
        simpa using this
      by_cases h1 : t1 ≤ calculate_similarity kws a.kws
      · simp only [growCluster, h1, h2, if_true, if_false]
        right
        refine ⟨a, growCluster_mem_subset t1 rest (mem ++ [a]) (kws ∪ a.kws)
          (by simp), ?_⟩
        intro hmem
        have hsrc : a ∈ mem ++ rest := growCluster_mem_src t2 rest mem kws hmem
        exact hmid.1 (List.mem_map.mpr ⟨a, hsrc, rfl⟩)
      · simp only [growCluster, h1, h2, if_false]
        exact growCluster_threshold_mono h12 rest mem kws hmid.2

/-- C4 (amended): raising the threshold can never make the **first** cluster's
membership a strict superset of what it was at the lower threshold. -/
theorem C4_first_cluster_not_strict_superset {α : Type} [DecidableEq α]
    {t1 t2 : ℚ} (h12 : t1 ≤ t2) (articles : List (KwArticle α))
    (hnd : (articles.map KwArticle.id).Nodup) {c1 c2 : Cluster α}
    (h1 : (cluster_articles t1 articles).head? = some c1)
    (h2 : (cluster_articles t2 articles).head? = some c2) :
    ¬ ((∀ x ∈ c1.members, x ∈ c2.members) ∧ ∃ y ∈ c2.members, y ∉ c1.members) := by
  rintro ⟨hsub, y, hy2, hy1⟩
  cases articles with
  | nil => simp [cluster_articles, clusterLoop] at h1
  | cons a rest =>
    simp only [cluster_articles, List.length_cons, clusterLoop, List.head?_cons,
      Option.some.injEq] at h1 h2
    have hmono := growCluster_threshold_mono h12 rest [a] a.kws (by simpa using hnd)
    have hm1 : c1.members = (growCluster t1 [a] a.kws rest).1 := by rw [← h1]
    have hm2 : c2.members = (growCluster t2 [a] a.kws rest).1 := by rw [← h2]
    rcases hmono with heq | ⟨x, hx1, hx2⟩
    · rw [hm1, heq, ← hm2] at hy1
      exact hy1 hy2
    · rw [← hm1] at hx1
      rw [← hm2] at hx2
      exact hx2 (hsub x hx1)

/-- Witness for C7: the partition properties at a concrete four-article input
with threshold 1/4. -/
theorem C7_cluster_partition_witness :
    (([⟨0, {0, 1, 2, 3, 10, 11, 12}⟩, ⟨1, {10, 11, 12, 20, 21}⟩, ⟨2, {20, 21}⟩,
        ⟨3, {10, 11, 12, 30}⟩] : List (KwArticle ℕ)).map KwArticle.id).Nodup ∧
    (((cluster_articles (Rat.divInt 1 4)
        [⟨0, {0, 1, 2, 3, 10, 11, 12}⟩, ⟨1, {10, 11, 12, 20, 21}⟩, ⟨2, {20, 21}⟩,
          ⟨3, {10, 11, 12, 30}⟩]).flatMap Cluster.members).Perm
      [⟨0, {0, 1, 2, 3, 10, 11, 12}⟩, ⟨1, {10, 11, 12, 20, 21}⟩, ⟨2, {20, 21}⟩,
        ⟨3, {10, 11, 12, 30}⟩] ∧
    (∀ a ∈ ([⟨0, {0, 1, 2, 3, 10, 11, 12}⟩, ⟨1, {10, 11, 12, 20, 21}⟩, ⟨2, {20, 21}⟩,
        ⟨3, {10, 11, 12, 30}⟩] : List (KwArticle ℕ)),
      (cluster_articles (Rat.divInt 1 4)
        [⟨0, {0, 1, 2, 3, 10, 11, 12}⟩, ⟨1, {10, 11, 12, 20, 21}⟩, ⟨2, {20, 21}⟩,
          ⟨3, {10, 11, 12, 30}⟩]).countP (fun c => a ∈ c.members) = 1) ∧
    (cluster_articles (Rat.divInt 1 4)
        [⟨0, {0, 1, 2, 3, 10, 11, 12}⟩, ⟨1, {10, 11, 12, 20, 21}⟩, ⟨2, {20, 21}⟩,
          ⟨3, {10, 11, 12, 30}⟩]).length ≤
      ([⟨0, {0, 1, 2, 3, 10, 11, 12}⟩, ⟨1, {10, 11, 12, 20, 21}⟩, ⟨2, {20, 21}⟩,
        ⟨3, {10, 11, 12, 30}⟩] : List (KwArticle ℕ)).length) :=
  ⟨by decide, C7_cluster_partition (Rat.divInt 1 4) _ (by decide)⟩

/-- Counterexample to C4 as stated: with articles A,B,C,D (ids 0-3) and
thresholds `t1 = 8/25 = 0.32 ≤ t2 = 2/5 = 0.4`, the run at `t1` produces
clusters `[[A,B],[C],[D]]` while the run at `t2` produces `[[A],[B,C,D]]` —
the second cluster's membership at the higher threshold, `{B,C,D}`, is a
strict superset of the corresponding second cluster `{C}` at the lower
threshold.  (At `t1`, A absorbs B, which dilutes nothing further; at `t2`, B
stays free, seeds the second cluster and pulls in C and D.) -/
theorem C4_counterexample :
    Rat.divInt 8 25 ≤ Rat.divInt 2 5 ∧
    (cluster_articles (Rat.divInt 8 25)
        ([⟨0, {0, 1, 2, 3, 10, 11, 12}⟩, ⟨1, {10, 11, 12, 20, 21}⟩, ⟨2, {20, 21}⟩,
          ⟨3, {10, 11, 12, 30}⟩] : List (KwArticle ℕ))).map Cluster.members =
      [[⟨0, {0, 1, 2, 3, 10, 11, 12}⟩, ⟨1, {10, 11, 12, 20, 21}⟩], [⟨2, {20, 21}⟩],
        [⟨3, {10, 11, 12, 30}⟩]] ∧
    (cluster_articles (Rat.divInt 2 5)
        ([⟨0, {0, 1, 2, 3, 10, 11, 12}⟩, ⟨1, {10, 11, 12, 20, 21}⟩, ⟨2, {20, 21}⟩,
          ⟨3, {10, 11, 12, 30}⟩] : List (KwArticle ℕ))).map Cluster.members =
      [[⟨0, {0, 1, 2, 3, 10, 11, 12}⟩],
        [⟨1, {10, 11, 12, 20, 21}⟩, ⟨2, {20, 21}⟩, ⟨3, {10, 11, 12, 30}⟩]] ∧
    (∀ x ∈ ([⟨2, {20, 21}⟩] : List (KwArticle ℕ)),
      x ∈ ([⟨1, {10, 11, 12, 20, 21}⟩, ⟨2, {20, 21}⟩, ⟨3, {10, 11, 12, 30}⟩] :
        List (KwArticle ℕ))) ∧
    (⟨1, {10, 11, 12, 20, 21}⟩ : KwArticle ℕ) ∉ ([⟨2, {20, 21}⟩] : List (KwArticle ℕ)) := by
  decide

/-- Witness for the amended C4 at a one-article input with thresholds 0 ≤ 1. -/
theorem C4_first_cluster_witness :
    (0 : ℚ) ≤ 1 ∧
    (([⟨0, {1}⟩] : List (KwArticle ℕ)).map KwArticle.id).Nodup ∧
    (cluster_articles (0 : ℚ) ([⟨0, {1}⟩] : List (KwArticle ℕ))).head? =
      some ⟨[⟨0, {1}⟩], {1}⟩ ∧
    (cluster_articles (1 : ℚ) ([⟨0, {1}⟩] : List (KwArticle ℕ))).head? =
      some ⟨[⟨0, {1}⟩], {1}⟩ ∧
    ¬ ((∀ x ∈ (Cluster.mk ([⟨0, {1}⟩] : List (KwArticle ℕ)) {1}).members,
          x ∈ (Cluster.mk ([⟨0, {1}⟩] : List (KwArticle ℕ)) {1}).members) ∧
        ∃ y ∈ (Cluster.mk ([⟨0, {1}⟩] : List (KwArticle ℕ)) {1}).members,
          y ∉ (Cluster.mk ([⟨0, {1}⟩] : List (KwArticle ℕ)) {1}).members) :=
  ⟨by norm_num, by decide, by decide, by decide,
    @C4_first_cluster_not_strict_superset ℕ _ 0 1 (by norm_num) [⟨0, {1}⟩] (by decide)
      ⟨[⟨0, {1}⟩], {1}⟩ ⟨[⟨0, {1}⟩], {1}⟩ (by decide) (by decide)⟩

/-! ## `TopicAnalyzer.generate_topic_title` fallback (topic_analyzer.py lines 177-202)

Python strings are modelled as `List Char`.  `pyFind pat s` is Python's
`s.find(pat)`/`s.index(pat)` (first occurrence, `none` when absent);
`pyRFindChar c s` is the index of the last occurrence of the character `c`
(what `s.rsplit(c, 1)` splits at). -/

/-- Index of the first occurrence of `pat` as a contiguous substring. -/
def pyFind (pat : List Char) : List Char → Option ℕ
  | [] => if pat = [] then some 0 else none
  | c :: rest =>
    if pat.isPrefixOf (c :: rest) then some 0
    else (pyFind pat rest).map (· + 1)

/-- Index of the last occurrence of the character `c`. -/
def pyRFindChar (c : Char) : List Char → Option ℕ
  | [] => none
  | a :: rest =>
    match pyRFindChar c rest with
    | some i => some (i + 1)
    | none => if a = c then some 0 else none

/-- The separator priority list `[' - ', ' | ', ': ', ' — ']` of the title
truncation (the fourth uses an em-dash). -/
def SEPARATORS : List (List Char) :=
  [" - ".data, " | ".data, ": ".data, " — ".data]

/-- The deterministic branch of `TopicAnalyzer.generate_topic_title`, as a
function of the lead article's cleaned title (`strip_html(articles[0].title).strip()`):

```python
if lead_title:
    if len(lead_title) > 80:
        for sep in [' - ', ' | ', ': ', ' — ']:
            if sep in lead_title[:80]:
                lead_title = lead_title[:lead_title.index(sep)]
                break
        else:
            lead_title = lead_title[:77].rsplit(' ', 1)[0] + '...'
    return lead_title
return "News Update"
```

`(pyFind sep lead_title).getD lead_title.length` encodes `lead_title.index(sep)`,
which the `for` guard guarantees is defined whenever this branch runs. -/
def generate_topic_title_fallback (lead_title : List Char) : List Char :=
  if lead_title ≠ [] then
    if 80 < lead_title.length then
      match SEPARATORS.find? (fun sep => (pyFind sep (lead_title.take 80)).isSome) with
      | some sep => lead_title.take ((pyFind sep lead_title).getD lead_title.length)
      | none =>
        (match pyRFindChar ' ' (lead_title.take 77) with
          | some i => (lead_title.take 77).take i
          | none => lead_title.take 77) ++ "...".data
    else lead_title
  else "News Update".data

/-- An occurrence of `pat` consumes at most the rest of the string. -/
theorem pyFind_add_length_le (pat : List Char) :
    ∀ (l : List Char) (i : ℕ), pyFind pat l = some i → i + pat.length ≤ l.length
  | [], i => by
    unfold pyFind
    by_cases hp : pat = ([] : List Char) <;> simp [hp]
    rintro rfl
    simp
  | c :: rest, i => by
    unfold pyFind
    by_cases hp : pat.isPrefixOf (c :: rest)
    · simp only [hp, if_true, Option.some.injEq]
      rintro rfl
      simpa using (List.isPrefixOf_iff_prefix.mp hp).length_le
    · simp only [hp, Bool.false_eq_true, if_false]
      cases hfind : pyFind pat rest with
      | none => simp
      | some j =>
        simp only [hfind, Option.map_some', Option.some.injEq]
        rintro rfl
        have := pyFind_add_length_le pat rest j hfind
        simp only [List.length_cons]
        omega

/-- A substring occurrence inside a prefix is an occurrence in the whole
string, and the first occurrence in the whole string comes no later. -/
theorem pyFind_of_take (pat : List Char) :
    ∀ (l : List Char) (n j : ℕ), pyFind pat (l.take n) = some j →
      ∃ i, pyFind pat l = some i ∧ i ≤ j
  | l, 0, j => by
    simp only [List.take_zero, pyFind]
    by_cases hp : pat = ([] : List Char) <;> simp [hp]
    rintro rfl
    subst hp
    cases l with
    | nil => exact ⟨0, by simp [pyFind], le_rfl⟩
    | cons c rest => exact ⟨0, by simp [pyFind, List.isPrefixOf_iff_prefix], le_rfl⟩
  | [], n + 1, j => by
    simp only [List.take_nil]
    intro h
    exact ⟨j, h, le_rfl⟩
  | c :: rest, n + 1, j => by
    simp only [List.take_succ_cons, pyFind]
    by_cases hp : pat.isPrefixOf (c :: rest.take n)
    · have hp' : pat.isPrefixOf (c :: rest) := by
        rw [List.isPrefixOf_iff_prefix] at hp ⊢
        refine hp.trans ?_
        obtain ⟨t, ht⟩ := rest.take_prefix n
        exact ⟨t, by rw [List.cons_append, ht]⟩
      simp only [hp, hp', if_true, Option.some.injEq]
      rintro rfl
      exact ⟨0, rfl, le_rfl⟩
    · simp only [hp, Bool.false_eq_true, if_false]
      cases hfind : pyFind pat (rest.take n) with
      | none => simp
      | some j' =>
        simp only [hfind, Option.map_some', Option.some.injEq]
        rintro rfl
        obtain ⟨i', hi', hle⟩ := pyFind_of_take pat rest n j' hfind
        by_cases hc : pat.isPrefixOf (c :: rest)
        · exact ⟨0, by simp [pyFind, hc], by omega⟩
        · exact ⟨i' + 1, by simp [pyFind, hc, hi'], by omega⟩

/-- C5: for a cleaned lead title longer than 80 characters: when one of the
separators `' - '`, `' | '`, `': '`, `' — '` occurs wholly within the first 80
characters, the title is cut at the first occurrence of the first such
separator (in that fixed order), an occurrence itself lying within the first
80 characters; otherwise the first 77 characters are hard-truncated at their
last space — dropping the trailing (possibly incomplete) word, i.e. ending at
the last whole word within 77 characters — and an ellipsis is appended. -/
theorem C5_title_truncation (t : List Char) (hlen : 80 < t.length) :
    (∀ sep, SEPARATORS.find? (fun s => (pyFind s (t.take 80)).isSome) = some sep →
      ∃ i, pyFind sep t = some i ∧ i + sep.length ≤ 80 ∧
        generate_topic_title_fallback t = t.take i) ∧
    (SEPARATORS.find? (fun s => (pyFind s (t.take 80)).isSome) = none →
      generate_topic_title_fallback t =
        (match pyRFindChar ' ' (t.take 77) with
          | some i => (t.take 77).take i
          | none => t.take 77) ++ "...".data) := by
  have hne : t ≠ [] := by
    intro h
    rw [h] at hlen
    simp at hlen
  constructor
  · intro sep hsep
    have hsome : (pyFind sep (t.take 80)).isSome := by
      simpa using List.find?_some hsep
    obtain ⟨j, hj⟩ := Option.isSome_iff_exists.mp hsome
    obtain ⟨i, hi, hij⟩ := pyFind_of_take sep t 80 j hj
    have hjlen := pyFind_add_length_le sep (t.take 80) j hj
    have htake : (t.take 80).length = 80 := by
      rw [List.length_take]
      omega
    refine ⟨i, hi, by omega, ?_⟩
    unfold generate_topic_title_fallback
    rw [if_pos hne, if_pos hlen, hsep]
    simp [hi]
  · intro hnone
    unfold generate_topic_title_fallback
    rw [if_pos hne, if_pos hlen, hnone]

/-- The claim's Example-4 title with `' | '` at position 40 (93 characters). -/
def titleWithSeparator : List Char :=
  "aaaaaaaaaaaaaaaaaaaaaaaaaaaaaaaaaaaaaaaa | bbbbbbbbbbbbbbbbbbbbbbbbbbbbbbbbbbbbbbbbbbbbbbbbbb".data

/-- The claim's Example-4 title with no separator (95 characters). -/
def titleNoSeparator : List Char :=
  "sweeping economic reforms announced across several european markets signals two decisive pivots".data

/-- Witness for C5 at the 93-character title with `' | '` at position 40: the
hypothesis holds and the truncation returns the text before the separator;
the 95-character separator-free title is truncated to its last whole word
within 77 characters plus an ellipsis. -/
theorem C5_title_truncation_witness :
    80 < titleWithSeparator.length ∧
    ((∀ sep, SEPARATORS.find?
        (fun s => (pyFind s (titleWithSeparator.take 80)).isSome) = some sep →
      ∃ i, pyFind sep titleWithSeparator = some i ∧ i + sep.length ≤ 80 ∧
        generate_topic_title_fallback titleWithSeparator = titleWithSeparator.take i) ∧
    (SEPARATORS.find? (fun s => (pyFind s (titleWithSeparator.take 80)).isSome) = none →
      generate_topic_title_fallback titleWithSeparator =
        (match pyRFindChar ' ' (titleWithSeparator.take 77) with
          | some i => (titleWithSeparator.take 77).take i
          | none => titleWithSeparator.take 77) ++ "...".data)) ∧
    generate_topic_title_fallback titleWithSeparator =
      "aaaaaaaaaaaaaaaaaaaaaaaaaaaaaaaaaaaaaaaa".data ∧
    generate_topic_title_fallback titleNoSeparator =
      "sweeping economic reforms announced across several european markets signals...".data :=
  ⟨by decide, C5_title_truncation titleWithSeparator (by decide), by decide, by decide⟩

/-! ## `complete_json` of `AnthropicClient` / `GeminiClient` (llm_client.py
lines 51-74 and 155-176)

Both clients run the provider call and then, character for character, the same
response post-processing:

```python
try:
    if "```json" in response_text:
        start = response_text.find("```json") + 7
        end = response_text.find("```", start)
        response_text = response_text[start:end].strip()
    elif "```" in response_text:
        start = response_text.find("```") + 3
        end = response_text.find("```", start)
        response_text = response_text[start:end].strip()
    return json.loads(response_text)
except json.JSONDecodeError as e:
    logger.error(f"Failed to parse JSON response: {e}")
    return {}
```

`json.loads` (the external JSON library) is abstracted as a partial parse
function `parse : List Char → Option J`; `none` is a `json.JSONDecodeError`.
The result type `Except Unit J` keeps room for a raised error, so that the
claim "fails with a parse error" is expressible: a parse error would be
`Except.error`. -/

/-- Python's `s.find(pat, start)`: first occurrence at or after `start`. -/
def pyFindFrom (pat : List Char) (start : ℕ) (s : List Char) : Option ℕ :=
  (pyFind pat (s.drop start)).map (· + start)

/-- Python's `s.strip()`: drop leading and trailing whitespace. -/
def pyStrip (s : List Char) : List Char :=
  ((s.dropWhile Char.isWhitespace).reverse.dropWhile Char.isWhitespace).reverse

/-- Python's `s[start:end]` where `end` is `s.find("```", start)`, i.e. `-1`
when the closing fence is missing (`s[start:-1]` drops the last character). -/
def pySliceToFence (s : List Char) (start : ℕ) : List Char :=
  match pyFindFrom "```".data start s with
  | some e => (s.drop start).take (e - start)
  | none => (s.drop start).take (s.length - 1 - start)

/-- The markdown-code-block extraction both clients apply before parsing. -/
def extract_code_block (s : List Char) : List Char :=
  if (pyFind "```json".data s).isSome then
    pyStrip (pySliceToFence s ((pyFind "```json".data s).getD 0 + 7))
  else if (pyFind "```".data s).isSome then
    pyStrip (pySliceToFence s ((pyFind "```".data s).getD 0 + 3))
  else s

/-- `AnthropicClient.complete_json`, as a function of the provider's response
text: extract a fenced block if present, parse, and return `{}` (the value
`emptyObj`) when parsing fails — the `except json.JSONDecodeError` branch. -/
def AnthropicClient_complete_json {J : Type} (parse : List Char → Option J)
    (emptyObj : J) (response_text : List Char) : Except Unit J :=
  match parse (extract_code_block response_text) with
  | some v => Except.ok v
  | none => Except.ok emptyObj

/-- `GeminiClient.complete_json`: identical post-processing of the response. -/
def GeminiClient_complete_json {J : Type} (parse : List Char → Option J)
    (emptyObj : J) (response_text : List Char) : Except Unit J :=
  match parse (extract_code_block response_text) with
  | some v => Except.ok v
  | none => Except.ok emptyObj

/-- A minimal JSON value type; `obj []` is the empty mapping `{}`. -/
inductive PyJson : Type
  | obj : List (String × PyJson) → PyJson
  | str : String → PyJson
  | num : ℚ → PyJson
  | null : PyJson

/-- Counterexample to C9 as stated: a completion response that no JSON parse
accepts (`parse ≡ none`) makes `complete_json` of both clients return the
structured mapping `{}` successfully — no parse error is raised. -/
theorem C9_counterexample :
    (fun (_ : List Char) => (none : Option PyJson))
        (extract_code_block "I could not produce JSON".data) = none ∧
    AnthropicClient_complete_json (fun _ => (none : Option PyJson)) (PyJson.obj [])
        "I could not produce JSON".data = Except.ok (PyJson.obj []) ∧
    GeminiClient_complete_json (fun _ => (none : Option PyJson)) (PyJson.obj [])
        "I could not produce JSON".data = Except.ok (PyJson.obj []) :=
  ⟨rfl, rfl, rfl⟩

/-- C9 (amended): for every completion-service response whose
(markdown-stripped) text cannot be parsed as JSON, `complete_json` of the
Anthropic and Gemini clients swallows the parse error and returns the empty
mapping `{}` — a successful, structured (empty) result, not a distinguishable
failure. -/
theorem C9_parse_failure_returns_empty {J : Type} (parse : List Char → Option J)
    (emptyObj : J) (response : List Char)
    (h : parse (extract_code_block response) = none) :
    AnthropicClient_complete_json parse emptyObj response = Except.ok emptyObj ∧
    GeminiClient_complete_json parse emptyObj response = Except.ok emptyObj := by
  unfold AnthropicClient_complete_json GeminiClient_complete_json
  rw [h]
  exact ⟨rfl, rfl⟩

/-- Witness for the amended C9 at the always-failing parse and a concrete
response text. -/
theorem C9_parse_failure_returns_empty_witness :
    (fun (_ : List Char) => (none : Option PyJson))
        (extract_code_block "hello".data) = none ∧
    (AnthropicClient_complete_json (fun _ => (none : Option PyJson)) (PyJson.obj [])
        "hello".data = Except.ok (PyJson.obj []) ∧
      GeminiClient_complete_json (fun _ => (none : Option PyJson)) (PyJson.obj [])
        "hello".data = Except.ok (PyJson.obj [])) :=
  ⟨rfl, C9_parse_failure_returns_empty (fun _ => none) (PyJson.obj []) "hello".data rfl⟩

/-! ## `ArticleAnalyzer.analyze_pending` (article_analyzer.py lines 104-181)

The SHA-256 of `compute_content_hash` is abstracted as an arbitrary function
`hash : List Char → H`; the LLM batch call `analyze_batch` (which catches its
own provider/parse failures and returns `[]`) as a function
`analyzeBatch : List (Article H) → List AnalysisResult`; time as `ℚ`. -/

/-- `Article.analysis_status ∈ {pending, processing, completed, failed}`. -/
inductive AnalysisStatus : Type
  | pending
  | processing
  | completed
  | failed
  deriving DecidableEq

/-- An article row, restricted to the fields `analyze_pending` reads/writes. -/
structure Article (H : Type) where
  id : ℕ
  title : List Char
  description : Option (List Char)
  content : Option (List Char)
  fetched_at : ℚ
  analysis_status : AnalysisStatus
  content_hash : Option H
  llm_category : Option (List Char)
  llm_sentiment : Option (List Char)
  llm_metadata : Option (List (List Char) × List (List Char) × List (List Char))
  analyzed_at : Option ℚ
  deriving DecidableEq

/-- `ArticleAnalyzer.compute_content_hash`: the digest of
`f"{article.title}|{article.description or ''}|{article.content or ''}"`. -/
def compute_content_hash {H : Type} (hash : List Char → H) (a : Article H) : H :=
  hash (a.title ++ "|".data ++ a.description.getD [] ++ "|".data ++ a.content.getD [])

/-- One per-article analysis record parsed from the LLM response
(`r.get(...)` access: absent keys give `none` / `[]`). -/
structure AnalysisResult where
  id : Option ℕ
  category : Option (List Char)
  sentiment : Option (List Char)
  entities : List (List Char)
  topics : List (List Char)
  key_facts : List (List Char)
  deriving DecidableEq

/-- The run counters returned by `analyze_pending`. -/
structure AnalysisStats where
  processed : ℕ
  succeeded : ℕ
  failed : ℕ
  skipped : ℕ
  deriving DecidableEq

/-- The body of the `for j, article in enumerate(batch)` loop (lines 145-176):
count the article as processed; if its freshly recomputed content hash equals
the recorded one and it was already analyzed, mark `completed` and count a
skip; otherwise apply the positional result `id == j` if present (success) or
mark `failed`. -/
def applyResult {H : Type} [DecidableEq H] (hash : List Char → H) (now : ℚ)
    (results : List AnalysisResult) (j : ℕ) (article : Article H)
    (stats : AnalysisStats) : Article H × AnalysisStats :=
  let stats := { stats with processed := stats.processed + 1 }
  let new_hash := compute_content_hash hash article
  if article.content_hash = some new_hash ∧ article.analyzed_at.isSome then
    ({ article with analysis_status := .completed },
      { stats with skipped := stats.skipped + 1 })
  else
    match results.find? (fun r => r.id = some j) with
    | some result =>
      ({ article with
          llm_category := result.category
          llm_sentiment := result.sentiment
          llm_metadata := some (result.entities, result.topics, result.key_facts)
          content_hash := some new_hash
          analyzed_at := some now
          analysis_status := .completed },
        { stats with succeeded := stats.succeeded + 1 })
    | none =>
      ({ article with analysis_status := .failed },
        { stats with failed := stats.failed + 1 })

/-- The enumerate-fold over one batch, starting at positional id `j`. -/
def applyResults {H : Type} [DecidableEq H] (hash : List Char → H) (now : ℚ)
    (results : List AnalysisResult) :
    ℕ → List (Article H) → AnalysisStats → List (Article H) × AnalysisStats
  | _, [], stats => ([], stats)
  | j, a :: rest, stats =>
    let r := applyResult hash now results j a stats
    let r' := applyResults hash now results (j + 1) rest r.2
    (r.1 :: r'.1, r'.2)

/-- One batch (lines 133-178): mark every member `processing`, run the LLM
batch call, then apply the results positionally. -/
def processBatch {H : Type} [DecidableEq H] (hash : List Char → H) (now : ℚ)
    (analyzeBatch : List (Article H) → List AnalysisResult)
    (batch : List (Article H)) (stats : AnalysisStats) :
    List (Article H) × AnalysisStats :=
  let batch := batch.map (fun a => { a with analysis_status := .processing })
  let results := analyzeBatch batch
  applyResults hash now results 0 batch stats

/-- `range(0, len(l), n)` slicing into consecutive chunks of size `n`
(fuel-driven; instantiated with `fuel = l.length`). -/
def pyChunks {β : Type} (n : ℕ) : ℕ → List β → List (List β)
  | _, [] => []
  | 0, l => [l]
  | fuel + 1, l => l.take n :: pyChunks n fuel (l.drop n)

/-- `ArticleAnalyzer.analyze_pending(limit)`: query the pending articles
most-recently-fetched first, truncate to `limit`, process in batches of
`batch_size`, and return the updated articles with the aggregate counters. -/
def analyze_pending {H : Type} [DecidableEq H] (hash : List Char → H) (now : ℚ)
    (analyzeBatch : List (Article H) → List AnalysisResult) (batch_size : ℕ)
    (store : List (Article H)) (limit : ℕ) : List (Article H) × AnalysisStats :=
  let stats : AnalysisStats := ⟨0, 0, 0, 0⟩
  let pending := (((store.filter (fun a => a.analysis_status = .pending)).insertionSort
      (fun a b => b.fetched_at ≤ a.fetched_at)).take limit)
  if pending = [] then ([], stats)
  else
    (pyChunks batch_size pending.length pending).foldl
      (fun acc batch =>
        let r := processBatch hash now analyzeBatch batch acc.2
        (acc.1 ++ r.1, r.2))
      ([], stats)

/-- C6: an article whose freshly recomputed content hash equals its recorded
hash and whose `analyzed_at` is set is marked `completed` and counted as
skipped, and its enrichment fields (`llm_category`, `llm_sentiment`,
`llm_metadata`, `content_hash`, `analyzed_at`) are all left unchanged — the
only mutations are the status and the counters. -/
theorem C6_unchanged_article_skip {H : Type} [DecidableEq H] (hash : List Char → H)
    (now : ℚ) (results : List AnalysisResult) (j : ℕ) (article : Article H)
    (stats : AnalysisStats)
    (hhash : article.content_hash = some (compute_content_hash hash article))
    (hana : article.analyzed_at.isSome) :
    (applyResult hash now results j article stats).1 =
      { article with analysis_status := .completed } ∧
    (applyResult hash now results j article stats).2 =
      { stats with processed := stats.processed + 1, skipped := stats.skipped + 1 } ∧
    (applyResult hash now results j article stats).1.llm_category = article.llm_category ∧
    (applyResult hash now results j article stats).1.llm_sentiment = article.llm_sentiment ∧
    (applyResult hash now results j article stats).1.llm_metadata = article.llm_metadata ∧
    (applyResult hash now results j article stats).1.content_hash = article.content_hash ∧
    (applyResult hash now results j article stats).1.analyzed_at = article.analyzed_at := by
  refine ⟨?_, ?_, ?_, ?_, ?_, ?_, ?_⟩ <;> simp [applyResult, hhash, hana]

/-- Witness for C6: a concrete already-analyzed, unchanged article (hash
function `id`, recorded hash `"t||"`). -/
theorem C6_unchanged_article_skip_witness :
    (⟨1, "t".data, none, none, 0, .pending, some "t||".data, none, none, none,
        some 0⟩ : Article (List Char)).content_hash =
      some (compute_content_hash id
        ⟨1, "t".data, none, none, 0, .pending, some "t||".data, none, none, none,
          some 0⟩) ∧
    (⟨1, "t".data, none, none, 0, .pending, some "t||".data, none, none, none,
        some 0⟩ : Article (List Char)).analyzed_at.isSome ∧
    ((applyResult id 0 [] 0
        ⟨1, "t".data, none, none, 0, .pending, some "t||".data, none, none, none,
          some 0⟩ ⟨0, 0, 0, 0⟩).1 =
      { (⟨1, "t".data, none, none, 0, .pending, some "t||".data, none, none, none,
          some 0⟩ : Article (List Char)) with analysis_status := .completed } ∧
    (applyResult id 0 [] 0
        ⟨1, "t".data, none, none, 0, .pending, some "t||".data, none, none, none,
          some 0⟩ ⟨0, 0, 0, 0⟩).2 = ⟨1, 0, 0, 1⟩ ∧
    (applyResult id 0 [] 0
        ⟨1, "t".data, none, none, 0, .pending, some "t||".data, none, none, none,
          some 0⟩ ⟨0, 0, 0, 0⟩).1.llm_category = none ∧
    (applyResult id 0 [] 0
        ⟨1, "t".data, none, none, 0, .pending, some "t||".data, none, none, none,
          some 0⟩ ⟨0, 0, 0, 0⟩).1.llm_sentiment = none ∧
    (applyResult id 0 [] 0
        ⟨1, "t".data, none, none, 0, .pending, some "t||".data, none, none, none,
          some 0⟩ ⟨0, 0, 0, 0⟩).1.llm_metadata = none ∧
    (applyResult id 0 [] 0
        ⟨1, "t".data, none, none, 0, .pending, some "t||".data, none, none, none,
          some 0⟩ ⟨0, 0, 0, 0⟩).1.content_hash = some "t||".data ∧
    (applyResult id 0 [] 0
        ⟨1, "t".data, none, none, 0, .pending, some "t||".data, none, none, none,
          some 0⟩ ⟨0, 0, 0, 0⟩).1.analyzed_at = some 0) := by
  refine ⟨by decide, by decide, ?_⟩
  have h := C6_unchanged_article_skip (id : List Char → List Char) 0 [] 0
    ⟨1, "t".data, none, none, 0, .pending, some "t||".data, none, none, none, some 0⟩
    ⟨0, 0, 0, 0⟩ (by decide) (by decide)
  exact h

/-- Each article pass counts one `processed` and exactly one of
`succeeded`/`failed`/`skipped`. -/
theorem applyResult_counters {H : Type} [DecidableEq H] (hash : List Char → H)
    (now : ℚ) (results : List AnalysisResult) (j : ℕ) (article : Article H)
    (stats : AnalysisStats) :
    (applyResult hash now results j article stats).2.processed = stats.processed + 1 ∧
    (applyResult hash now results j article stats).2.succeeded +
        (applyResult hash now results j article stats).2.failed +
        (applyResult hash now results j article stats).2.skipped =
      stats.succeeded + stats.failed + stats.skipped + 1 := by
  simp only [applyResult]
  by_cases hc : article.content_hash = some (compute_content_hash hash article) ∧
      article.analyzed_at.isSome = true
  · rw [if_pos hc]
    refine ⟨rfl, ?_⟩
    show stats.succeeded + stats.failed + (stats.skipped + 1) =
      stats.succeeded + stats.failed + stats.skipped + 1
    omega
  · rw [if_neg hc]
    cases hf : List.find? (fun r => r.id = some j) results with
    | some result =>
      refine ⟨rfl, ?_⟩
      show stats.succeeded + 1 + stats.failed + stats.skipped =
        stats.succeeded + stats.failed + stats.skipped + 1
      omega
    | none =>
      refine ⟨rfl, ?_⟩
      show stats.succeeded + (stats.failed + 1) + stats.skipped =
        stats.succeeded + stats.failed + stats.skipped + 1
      omega

/-- The batch fold adds the batch length to `processed` and to the sum of the
three outcome counters. -/
theorem applyResults_counters {H : Type} [DecidableEq H] (hash : List Char → H)
    (now : ℚ) (results : List AnalysisResult) :
    ∀ (batch : List (Article H)) (j : ℕ) (stats : AnalysisStats),
      (applyResults hash now results j batch stats).2.processed =
        stats.processed + batch.length ∧
      (applyResults hash now results j batch stats).2.succeeded +
          (applyResults hash now results j batch stats).2.failed +
          (applyResults hash now results j batch stats).2.skipped =
        stats.succeeded + stats.failed + stats.skipped + batch.length
  | [], j, stats => by simp [applyResults]
  | a :: rest, j, stats => by
    have h1 := applyResult_counters hash now results j a stats
    have h2 := applyResults_counters hash now results rest (j + 1)
      (applyResult hash now results j a stats).2
    simp only [applyResults, List.length_cons]
    constructor
    · rw [h2.1, h1.1]; omega
    · rw [h2.2, h1.2]; omega

/-- Same statement lifted over the `processing` mark and the LLM call. -/
theorem processBatch_counters {H : Type} [DecidableEq H] (hash : List Char → H)
    (now : ℚ) (analyzeBatch : List (Article H) → List AnalysisResult)
    (batch : List (Article H)) (stats : AnalysisStats) :
    (processBatch hash now analyzeBatch batch stats).2.processed =
      stats.processed + batch.length ∧
    (processBatch hash now analyzeBatch batch stats).2.succeeded +
        (processBatch hash now analyzeBatch batch stats).2.failed +
        (processBatch hash now analyzeBatch batch stats).2.skipped =
      stats.succeeded + stats.failed + stats.skipped + batch.length := by
  unfold processBatch
  have := applyResults_counters hash now
    (analyzeBatch (batch.map (fun a => { a with analysis_status := .processing })))
    (batch.map (fun a => { a with analysis_status := .processing })) 0 stats
  simpa using this

/-- Chunking cuts the list into consecutive slices: the lengths add back up. -/
theorem pyChunks_length_sum {β : Type} (n : ℕ) :
    ∀ (fuel : ℕ) (l : List β), ((pyChunks n fuel l).map List.length).sum = l.length
  | 0, [] => by simp [pyChunks]
  | 0, b :: l => by simp [pyChunks]
  | fuel + 1, [] => by simp [pyChunks]
  | fuel + 1, b :: l => by
    simp only [pyChunks, List.map_cons, List.sum_cons]
    rw [pyChunks_length_sum n fuel ((b :: l).drop n)]
    rw [List.length_take, List.length_drop]
    omega

/-- The batch loop accumulates counters batch by batch. -/
theorem foldBatches_counters {H : Type} [DecidableEq H] (hash : List Char → H)
    (now : ℚ) (analyzeBatch : List (Article H) → List AnalysisResult) :
    ∀ (CL : List (List (Article H))) (acc : List (Article H) × AnalysisStats),
      (CL.foldl (fun acc batch =>
          let r := processBatch hash now analyzeBatch batch acc.2
          (acc.1 ++ r.1, r.2)) acc).2.processed =
        acc.2.processed + (CL.map List.length).sum ∧
      (CL.foldl (fun acc batch =>
          let r := processBatch hash now analyzeBatch batch acc.2
          (acc.1 ++ r.1, r.2)) acc).2.succeeded +
          (CL.foldl (fun acc batch =>
            let r := processBatch hash now analyzeBatch batch acc.2
            (acc.1 ++ r.1, r.2)) acc).2.failed +
          (CL.foldl (fun acc batch =>
            let r := processBatch hash now analyzeBatch batch acc.2
            (acc.1 ++ r.1, r.2)) acc).2.skipped =
        acc.2.succeeded + acc.2.failed + acc.2.skipped + (CL.map List.length).sum
  | [], acc => by simp
  | c :: CL, acc => by
    have hb := processBatch_counters hash now analyzeBatch c acc.2
    have ih := foldBatches_counters hash now analyzeBatch CL
      (acc.1 ++ (processBatch hash now analyzeBatch c acc.2).1,
        (processBatch hash now analyzeBatch c acc.2).2)
    simp only [List.foldl_cons, List.map_cons, List.sum_cons]
    constructor
    · rw [ih.1]; simp only []; rw [hb.1]; omega
    · rw [ih.2]; simp only []; rw [hb.2]; omega

/-- C10: the counters returned by `analyze_pending(limit)` satisfy
`processed = succeeded + failed + skipped` and `processed ≤ limit`. -/
theorem C10_analyze_pending_counters {H : Type} [DecidableEq H]
    (hash : List Char → H) (now : ℚ)
    (analyzeBatch : List (Article H) → List AnalysisResult) (batch_size : ℕ)
    (store : List (Article H)) (limit : ℕ) :
    (analyze_pending hash now analyzeBatch batch_size store limit).2.processed =
      (analyze_pending hash now analyzeBatch batch_size store limit).2.succeeded +
        (analyze_pending hash now analyzeBatch batch_size store limit).2.failed +
        (analyze_pending hash now analyzeBatch batch_size store limit).2.skipped ∧
    (analyze_pending hash now analyzeBatch batch_size store limit).2.processed ≤
      limit := by
  simp only [analyze_pending]
  split
  · exact ⟨rfl, Nat.zero_le _⟩
  · set pending := ((store.filter (fun a => a.analysis_status = .pending)).insertionSort
      (fun a b => b.fetched_at ≤ a.fetched_at)).take limit with hpending
    have hfold := foldBatches_counters hash now analyzeBatch
      (pyChunks batch_size pending.length pending) ([], ⟨0, 0, 0, 0⟩)
    have hsum := pyChunks_length_sum batch_size pending.length pending
    have hlen : pending.length ≤ limit := by
      rw [hpending]
      exact List.length_take_le _ _
    constructor
    · rw [hfold.1, hfold.2, hsum]
      simp
    · rw [hfold.1, hsum]
      simpa using hlen

/-! ## `get_top_topics` ranking (routes/topics.py lines 86-232)

Python's `min`/`max` on floats are embedded as `pyMin`/`pyMax`
(if-expressions, provably equal to Mathlib's `min`/`max`); `round(x, 3)` as
exact round-half-to-even on `ℚ`; constant decimals as `mkRat` (e.g. `0.40` is
`mkRat 40 100`); timestamps as `ℚ` seconds.  The `sources` annotation of each
accepted topic (feed names, display only) is outside the modelled state. -/

/-- Python's binary `min` on floats. -/
def pyMin (a b : ℚ) : ℚ := if a ≤ b then a else b

/-- Python's binary `max` on floats. -/
def pyMax (a b : ℚ) : ℚ := if a ≤ b then b else a

theorem pyMin_eq_min (a b : ℚ) : pyMin a b = min a b := (min_def a b).symm

theorem pyMax_eq_max (a b : ℚ) : pyMax a b = max a b := (max_def a b).symm

/-- Python's `round(q, 3)`: scale by 1000, round half to even, scale back. -/
def pyRound3 (q : ℚ) : ℚ :=
  let scaled := q * 1000
  let fl : ℤ := ⌊scaled⌋
  let frac := scaled - fl
  let r : ℤ :=
    if frac < mkRat 1 2 then fl
    else if mkRat 1 2 < frac then fl + 1
    else if fl % 2 = 0 then fl else fl + 1
  (r : ℚ) * mkRat 1 1000

/-- Python's `pat in s` (substring containment). -/
def pyContains (s pat : List Char) : Bool := (pyFind pat s).isSome

/-- Python's `s.lower()`. -/
def pyLower (s : List Char) : List Char := s.map Char.toLower

/-- `TOP_STORIES_LIMIT = 15`. -/
def TOP_STORIES_LIMIT : ℕ := 15

/-- `MAX_PER_CATEGORY = 15` (the configured constant; the docstring above it
still says "Max 3 stories per category"). -/
def MAX_PER_CATEGORY : ℕ := 15

/-- The `ROUTINE_KEYWORDS` set (14 distinct words; set iteration order does
not matter because the penalty just adds `0.05` per matched word). -/
def ROUTINE_KEYWORDS : List (List Char) :=
  ["update".data, "report".data, "statement".data, "announces".data, "says".data,
    "weekly".data, "daily".data, "monthly".data, "quarterly".data, "annual".data,
    "routine".data, "regular".data, "scheduled".data, "expected".data]

/-- A topic row as read by the ranking endpoint. -/
structure TopicR where
  title : Option (List Char)
  keywords : Option (List Char)
  category : Option (List Char)
  article_count : ℕ
  importance_score : Option ℚ
  updated_at : Option ℚ
  deriving DecidableEq

/-- `calculate_score(topic, category_counts)` (lines 139-182), with `now` and
`max_article_count` from the enclosing scope.  Note the Python truthiness
test `topic.importance_score if topic.importance_score else 0.5`: a stored
`0.0` also falls back to `0.5`. -/
def calculate_score (now : ℚ) (max_article_count : ℕ) (topic : TopicR)
    (category_counts : List Char → ℕ) : ℚ :=
  let importance : ℚ :=
    match topic.importance_score with
    | some v => if v = 0 then mkRat 1 2 else v
    | none => mkRat 1 2
  let recency : ℚ :=
    match topic.updated_at with
    | none => 0
    | some u =>
      let hours_old := (now - u) * mkRat 1 3600
      if now - 6 * 3600 ≤ u then 1 - hours_old * mkRat 1 6
      else pyMax 0 (mkRat 1 2 - hours_old * mkRat 1 48)
  let coverage : ℚ := pyMin (Rat.divInt topic.article_count max_article_count) 1
  let category := topic.category.getD "General".data
  let current_count := category_counts category
  let diversity : ℚ :=
    if current_count = 0 then 1 else if current_count = 1 then mkRat 1 2 else 0
  let title_lower := pyLower (topic.title.getD [])
  let keywords_lower := pyLower (topic.keywords.getD [])
  let penalty : ℚ := pyMin
    (mkRat 5 100 * (ROUTINE_KEYWORDS.countP
      (fun w => pyContains title_lower w || pyContains keywords_lower w) : ℚ))
    (mkRat 3 10)
  (mkRat 40 100 * importance + mkRat 30 100 * recency +
    mkRat 20 100 * coverage + mkRat 10 100 * diversity) * (1 - penalty)

/-- `max(t.article_count for t in candidates) or 1`. -/
def maxArticleCount (candidates : List TopicR) : ℕ :=
  let m := (candidates.map TopicR.article_count).foldr Nat.max 0
  if m = 0 then 1 else m

/-- The category key used throughout: `topic.category or 'General'`. -/
def categoryKey (t : TopicR) : List Char := t.category.getD "General".data

/-- The second pass (lines 199-224): walk the base-score-sorted candidates,
stop at the hard cap, skip saturated categories, recompute the final score
against the live `category_counts`, and append the accepted topic with its
rounded score. -/
def selectLoop (now : ℚ) (maxc : ℕ) :
    List (TopicR × ℚ) → List (TopicR × ℚ) → (List Char → ℕ) → List (TopicR × ℚ)
  | [], result, _ => result
  | (t, _) :: rest, result, cc =>
    if TOP_STORIES_LIMIT ≤ result.length then result
    else
      let category := categoryKey t
      if MAX_PER_CATEGORY ≤ cc category then selectLoop now maxc rest result cc
      else
        let final_score := calculate_score now maxc t cc
        selectLoop now maxc rest (result ++ [(t, pyRound3 final_score)])
          (fun c => if c = category then cc c + 1 else cc c)

/-- `get_top_topics` (lines 103-232) as a function of the candidate query
result (topics with `article_count ≥ 1`, 100 most recently updated): score
all candidates against an empty diversity state, stable-sort by base score
descending, select under the caps, and re-sort the accepted list by final
score descending. -/
def get_top_topics (now : ℚ) (candidates : List TopicR) : List (TopicR × ℚ) :=
  if candidates = [] then []
  else
    let maxc := maxArticleCount candidates
    let scored := candidates.map (fun t => (t, calculate_score now maxc t (fun _ => 0)))
    let sorted := scored.insertionSort (fun x y => y.2 ≤ x.2)
    let result := selectLoop now maxc sorted [] (fun _ => 0)
    result.insertionSort (fun x y => y.2 ≤ x.2)

/-- A candidate topic whose stored importance is exactly 0.0 (spec-legal:
`importance_score ∈ [0,1]`, and the semantic grouper stores the LLM's
unclamped `group.get("importance", 0.5)`), updated 0h ago, one article,
unseen category, no routine keywords. -/
def zeroImportanceTopic : TopicR :=
  ⟨some "Quiet Day".data, none, some "Science".data, 1, some 0, some 0⟩

/-- Counterexample to C2 as stated: at a candidate topic with **stored
importance 0.0** (updated 0h ago, `article_count = 1 = max`, category unseen,
no routine keywords, `now = 0`), the code computes
`0.40·0.5 + 0.30·1 + 0.20·1 + 0.10·1 = 0.8` — Python's truthiness test
`topic.importance_score if topic.importance_score else 0.5` (topics.py line
143) replaces the stored `0.0` by the default `0.5` — while the claimed
formula with the topic's (stored) importance gives
`0.40·0 + 0.30·1 + 0.20·1 + 0.10·1 = 0.6 ≠ 0.8`. -/
theorem C2_counterexample :
    zeroImportanceTopic.importance_score = some 0 ∧
    calculate_score 0 1 zeroImportanceTopic (fun _ => 0) = mkRat 4 5 ∧
    ((40 : ℚ)/100 * 0 +
        (30 : ℚ)/100 * (1 - (((0 : ℚ) - 0) / 3600) / 6) +
        (20 : ℚ)/100 * min ((zeroImportanceTopic.article_count : ℚ) / ((1 : ℕ) : ℚ)) 1 +
        (10 : ℚ)/100 * (if (fun (_ : List Char) => 0) (categoryKey zeroImportanceTopic) = 0
          then 1
          else if (fun (_ : List Char) => 0) (categoryKey zeroImportanceTopic) = 1
            then 1/2 else 0)) *
      (1 - min ((5 : ℚ)/100 * (ROUTINE_KEYWORDS.countP
          (fun w => pyContains (pyLower (zeroImportanceTopic.title.getD [])) w ||
            pyContains (pyLower (zeroImportanceTopic.keywords.getD [])) w) : ℚ))
        ((3 : ℚ)/10)) = mkRat 3 5 ∧
    (mkRat 4 5 : ℚ) ≠ mkRat 3 5 := by
  have hpen : ROUTINE_KEYWORDS.countP
      (fun w => pyContains (pyLower (zeroImportanceTopic.title.getD [])) w ||
        pyContains (pyLower (zeroImportanceTopic.keywords.getD [])) w) = 0 := by decide
  refine ⟨rfl, ?_, ?_, by decide⟩
  · simp only [calculate_score, categoryKey, hpen]
    norm_num [zeroImportanceTopic, pyMin, pyMax, Rat.mkRat_eq_div, Rat.divInt_eq_div]
  · rw [hpen]
    norm_num [zeroImportanceTopic, categoryKey, Rat.mkRat_eq_div]

/-- C2 (amended): the computed score equals
`(0.40·importance + 0.30·recency + 0.20·coverage + 0.10·diversity)·(1 − penalty)`
with `recency = 1 − hours_old/6` when updated within the last 6 hours and
`max(0, 0.5 − hours_old/48)` otherwise, `coverage = article_count/max_count`
capped at 1, `diversity = 1 / 0.5 / 0` for a category selected
zero / once / twice-or-more times, and `penalty = 0.05` per matched routine
keyword capped at `0.30` — for every candidate topic whose stored importance
is nonzero (and whose `updated_at` is set, not after `now`).  A topic whose
`importance_score` is unset **or stored as exactly 0.0** is scored with the
default importance `0.5` instead (Python truthiness, see
`C2_counterexample`). -/
theorem C2_score_formula (now : ℚ) (maxc : ℕ) (t : TopicR) (cc : List Char → ℕ)
    (imp u : ℚ) (himp : t.importance_score = some imp) (himp0 : imp ≠ 0)
    (hupd : t.updated_at = some u) (hu : u ≤ now) :
    (now - u ≤ 6 * 3600 →
      calculate_score now maxc t cc =
        ((40 : ℚ)/100 * imp +
          (30 : ℚ)/100 * (1 - ((now - u) / 3600) / 6) +
          (20 : ℚ)/100 * min ((t.article_count : ℚ) / (maxc : ℚ)) 1 +
          (10 : ℚ)/100 * (if cc (categoryKey t) = 0 then 1
            else if cc (categoryKey t) = 1 then 1/2 else 0)) *
        (1 - min ((5 : ℚ)/100 * (ROUTINE_KEYWORDS.countP
            (fun w => pyContains (pyLower (t.title.getD [])) w ||
              pyContains (pyLower (t.keywords.getD [])) w) : ℚ)) ((3 : ℚ)/10))) ∧
    (¬ (now - u ≤ 6 * 3600) →
      calculate_score now maxc t cc =
        ((40 : ℚ)/100 * imp +
          (30 : ℚ)/100 * max 0 ((1 : ℚ)/2 - ((now - u) / 3600) / 48) +
          (20 : ℚ)/100 * min ((t.article_count : ℚ) / (maxc : ℚ)) 1 +
          (10 : ℚ)/100 * (if cc (categoryKey t) = 0 then 1
            else if cc (categoryKey t) = 1 then 1/2 else 0)) *
        (1 - min ((5 : ℚ)/100 * (ROUTINE_KEYWORDS.countP
            (fun w => pyContains (pyLower (t.title.getD [])) w ||
              pyContains (pyLower (t.keywords.getD [])) w) : ℚ)) ((3 : ℚ)/10))) := by
  constructor
  · intro hrec
    have hbranch : now - 6 * 3600 ≤ u := by linarith
    simp only [calculate_score, himp, himp0, if_false, hupd, if_pos hbranch,
      pyMin_eq_min, pyMax_eq_max, Rat.divInt_eq_div, Rat.mkRat_eq_div, categoryKey]
    push_cast
    ring_nf
  · intro hrec
    have hbranch : ¬ (now - 6 * 3600 ≤ u) := by
      intro h
      exact hrec (by linarith)
    simp only [calculate_score, himp, himp0, if_false, hupd, if_neg hbranch,
      pyMin_eq_min, pyMax_eq_max, Rat.divInt_eq_div, Rat.mkRat_eq_div, categoryKey]
    push_cast
    ring_nf

/-- The claim's Example-2 topic: importance 0.9, updated 1h ago, 10 articles,
routine-free title and keywords. -/
def exampleTopic : TopicR :=
  ⟨some "Quantum Breakthrough".data, some "quantum,physics".data,
    some "Science".data, 10, some (mkRat 9 10), some 0⟩

/-- Witness for C2 at the Example-2 topic (`now` = 3600s, `max = 10`, unseen
category): the hypotheses hold and the computed score is exactly 0.91. -/
theorem C2_score_formula_witness :
    exampleTopic.importance_score = some (mkRat 9 10) ∧
    mkRat 9 10 ≠ 0 ∧
    exampleTopic.updated_at = some 0 ∧
    (0 : ℚ) ≤ 3600 ∧
    ((3600 : ℚ) - 0 ≤ 6 * 3600 →
      calculate_score 3600 10 exampleTopic (fun _ => 0) =
        ((40 : ℚ)/100 * mkRat 9 10 +
          (30 : ℚ)/100 * (1 - (((3600 : ℚ) - 0) / 3600) / 6) +
          (20 : ℚ)/100 * min ((exampleTopic.article_count : ℚ) / ((10 : ℕ) : ℚ)) 1 +
          (10 : ℚ)/100 * (if (fun (_ : List Char) => 0) (categoryKey exampleTopic) = 0 then 1
            else if (fun (_ : List Char) => 0) (categoryKey exampleTopic) = 1 then 1/2 else 0)) *
        (1 - min ((5 : ℚ)/100 * (ROUTINE_KEYWORDS.countP
            (fun w => pyContains (pyLower (exampleTopic.title.getD [])) w ||
              pyContains (pyLower (exampleTopic.keywords.getD [])) w) : ℚ)) ((3 : ℚ)/10))) ∧
    calculate_score 3600 10 exampleTopic (fun _ => 0) = mkRat 91 100 :=
  ⟨rfl, by decide, rfl, by norm_num,
    (C2_score_formula 3600 10 exampleTopic (fun _ => 0) (mkRat 9 10) 0 rfl (by decide)
      rfl (by norm_num)).1,
    by
      have hpen : ROUTINE_KEYWORDS.countP
          (fun w => pyContains (pyLower (exampleTopic.title.getD [])) w ||
            pyContains (pyLower (exampleTopic.keywords.getD [])) w) = 0 := by decide
      simp only [calculate_score, categoryKey, hpen]
      norm_num [exampleTopic, pyMin, pyMax, Rat.mkRat_eq_div, Rat.divInt_eq_div]⟩

/-- Bounds for the weighted-sum-times-penalty shape of the score. -/
theorem score_core_bounds (imp rec cov div pen : ℚ)
    (hi0 : 0 ≤ imp) (hi1 : imp ≤ 1) (hr0 : 0 ≤ rec) (hr1 : rec ≤ 1)
    (hc0 : 0 ≤ cov) (hc1 : cov ≤ 1) (hd0 : 0 ≤ div) (hd1 : div ≤ 1)
    (hp0 : 0 ≤ pen) (hp1 : pen ≤ mkRat 3 10) :
    0 ≤ (mkRat 40 100 * imp + mkRat 30 100 * rec + mkRat 20 100 * cov +
        mkRat 10 100 * div) * (1 - pen) ∧
    (mkRat 40 100 * imp + mkRat 30 100 * rec + mkRat 20 100 * cov +
        mkRat 10 100 * div) * (1 - pen) ≤ 1 := by
  have e40 : (mkRat 40 100 : ℚ) = 40/100 := by norm_num [Rat.mkRat_eq_div]
  have e30 : (mkRat 30 100 : ℚ) = 30/100 := by norm_num [Rat.mkRat_eq_div]
  have e20 : (mkRat 20 100 : ℚ) = 20/100 := by norm_num [Rat.mkRat_eq_div]
  have e10 : (mkRat 10 100 : ℚ) = 10/100 := by norm_num [Rat.mkRat_eq_div]
  have e3 : (mkRat 3 10 : ℚ) = 3/10 := by norm_num [Rat.mkRat_eq_div]
  rw [e40, e30, e20, e10]
  rw [e3] at hp1
  have hS0 : 0 ≤ (40/100 : ℚ) * imp + 30/100 * rec + 20/100 * cov + 10/100 * div := by
    nlinarith
  have hS1 : (40/100 : ℚ) * imp + 30/100 * rec + 20/100 * cov + 10/100 * div ≤ 1 := by
    nlinarith
  have hP0 : (0 : ℚ) ≤ 1 - pen := by linarith
  refine ⟨mul_nonneg hS0 hP0, ?_⟩
  nlinarith [mul_nonneg (sub_nonneg.mpr hS1) hP0]

/-- Every `calculate_score` value lies in `[0, 1]`, given importances in
`[0, 1]` and `updated_at` timestamps not in the future. -/
theorem calculate_score_bounds (now : ℚ) (maxc : ℕ) (t : TopicR) (cc : List Char → ℕ)
    (himp : ∀ v, t.importance_score = some v → 0 ≤ v ∧ v ≤ 1)
    (hupd : ∀ u, t.updated_at = some u → u ≤ now) :
    0 ≤ calculate_score now maxc t cc ∧ calculate_score now maxc t cc ≤ 1 := by
  have ehalf : (mkRat 1 2 : ℚ) = 1/2 := by norm_num [Rat.mkRat_eq_div]
  have hi : 0 ≤ (match t.importance_score with
        | some v => if v = 0 then mkRat 1 2 else v
        | none => mkRat 1 2) ∧
      (match t.importance_score with
        | some v => if v = 0 then mkRat 1 2 else v
        | none => mkRat 1 2) ≤ 1 := by
    cases hv : t.importance_score with
    | none => rw [ehalf]; norm_num
    | some v =>
      by_cases hz : v = 0
      · simp only [hz, if_pos rfl, ehalf]; norm_num
      · simp only [if_neg hz]
        exact himp v hv
  have hr : 0 ≤ (match t.updated_at with
        | none => (0 : ℚ)
        | some u =>
          if now - 6 * 3600 ≤ u then 1 - (now - u) * mkRat 1 3600 * mkRat 1 6
          else pyMax 0 (mkRat 1 2 - (now - u) * mkRat 1 3600 * mkRat 1 48)) ∧
      (match t.updated_at with
        | none => (0 : ℚ)
        | some u =>
          if now - 6 * 3600 ≤ u then 1 - (now - u) * mkRat 1 3600 * mkRat 1 6
          else pyMax 0 (mkRat 1 2 - (now - u) * mkRat 1 3600 * mkRat 1 48)) ≤ 1 := by
    cases hv : t.updated_at with
    | none => norm_num
    | some u =>
      have hu := hupd u hv
      have e36 : (mkRat 1 3600 : ℚ) = 1/3600 := by norm_num [Rat.mkRat_eq_div]
      have e6 : (mkRat 1 6 : ℚ) = 1/6 := by norm_num [Rat.mkRat_eq_div]
      have e48 : (mkRat 1 48 : ℚ) = 1/48 := by norm_num [Rat.mkRat_eq_div]
      by_cases hb : now - 6 * 3600 ≤ u
      · simp only [if_pos hb, e36, e6]
        constructor <;> nlinarith
      · simp only [if_neg hb, pyMax_eq_max, e36, e48, ehalf]
        constructor
        · exact le_max_left 0 _
        · refine max_le (by norm_num) ?_
          nlinarith
  have hc : 0 ≤ pyMin (Rat.divInt (t.article_count : ℤ) (maxc : ℤ)) 1 ∧
      pyMin (Rat.divInt (t.article_count : ℤ) (maxc : ℤ)) 1 ≤ 1 := by
    rw [pyMin_eq_min]
    constructor
    · exact le_min (Rat.divInt_nonneg (Int.natCast_nonneg _) (Int.natCast_nonneg _))
        (by norm_num)
    · exact min_le_right _ _
  have hd : 0 ≤ (if cc (t.category.getD "General".data) = 0 then (1 : ℚ)
        else if cc (t.category.getD "General".data) = 1 then mkRat 1 2 else 0) ∧
      (if cc (t.category.getD "General".data) = 0 then (1 : ℚ)
        else if cc (t.category.getD "General".data) = 1 then mkRat 1 2 else 0) ≤ 1 := by
    split_ifs <;> norm_num [ehalf]
  have hp : 0 ≤ pyMin (mkRat 5 100 * (ROUTINE_KEYWORDS.countP
        (fun w => pyContains (pyLower (t.title.getD [])) w ||
          pyContains (pyLower (t.keywords.getD [])) w) : ℚ)) (mkRat 3 10) ∧
      pyMin (mkRat 5 100 * (ROUTINE_KEYWORDS.countP
        (fun w => pyContains (pyLower (t.title.getD [])) w ||
          pyContains (pyLower (t.keywords.getD [])) w) : ℚ)) (mkRat 3 10) ≤ mkRat 3 10 := by
    rw [pyMin_eq_min]
    have e5 : (mkRat 5 100 : ℚ) = 5/100 := by norm_num [Rat.mkRat_eq_div]
    have e3 : (mkRat 3 10 : ℚ) = 3/10 := by norm_num [Rat.mkRat_eq_div]
    constructor
    · refine le_min ?_ (by rw [e3]; norm_num)
      rw [e5]
      positivity
    · exact min_le_right _ _
  simp only [calculate_score]
  exact score_core_bounds _ _ _ _ _ hi.1 hi.2 hr.1 hr.2 hc.1 hc.2 hd.1 hd.2 hp.1 hp.2

/-- Rounding to three decimals keeps a value inside `[0, 1]`. -/
theorem pyRound3_bounds (q : ℚ) (h0 : 0 ≤ q) (h1 : q ≤ 1) :
    0 ≤ pyRound3 q ∧ pyRound3 q ≤ 1 := by
  have ehalf : (mkRat 1 2 : ℚ) = 1/2 := by norm_num [Rat.mkRat_eq_div]
  have ek : (mkRat 1 1000 : ℚ) = 1/1000 := by norm_num [Rat.mkRat_eq_div]
  have hs0 : (0:ℚ) ≤ q * 1000 := by positivity
  have hs1 : q * 1000 ≤ 1000 := by nlinarith
  have hfl0 : (0:ℤ) ≤ ⌊q * 1000⌋ := Int.floor_nonneg.mpr hs0
  have hfl1 : ⌊q * 1000⌋ ≤ 1000 := by
    have h := Int.floor_le_floor (α := ℚ) hs1
    simpa using h
  have hfle : (⌊q * 1000⌋ : ℚ) ≤ q * 1000 := Int.floor_le _
  simp only [pyRound3, ehalf, ek]
  split_ifs with hlt hgt hev
  · constructor
    · have : (0:ℚ) ≤ (⌊q * 1000⌋ : ℚ) := by exact_mod_cast hfl0
      nlinarith
    · have : ((⌊q * 1000⌋ : ℤ) : ℚ) ≤ 1000 := by exact_mod_cast hfl1
      nlinarith
  · constructor
    · have : (0:ℚ) ≤ (⌊q * 1000⌋ : ℚ) := by exact_mod_cast hfl0
      push_cast
      nlinarith
    · have hlt1000 : ⌊q * 1000⌋ < 1000 := by
        have hq : (⌊q * 1000⌋ : ℚ) < 1000 - 1/2 := by nlinarith
        have hq2 : (⌊q * 1000⌋ : ℚ) < 1000 := hq.trans (by norm_num)
        exact_mod_cast hq2
      have : ((⌊q * 1000⌋ : ℤ) : ℚ) + 1 ≤ 1000 := by exact_mod_cast hlt1000
      push_cast
      nlinarith
  · constructor
    · have : (0:ℚ) ≤ (⌊q * 1000⌋ : ℚ) := by exact_mod_cast hfl0
      nlinarith
    · have : ((⌊q * 1000⌋ : ℤ) : ℚ) ≤ 1000 := by exact_mod_cast hfl1
      nlinarith
  · constructor
    · have : (0:ℚ) ≤ (⌊q * 1000⌋ : ℚ) := by exact_mod_cast hfl0
      push_cast
      nlinarith
    · have hhalf : q * 1000 - (⌊q * 1000⌋ : ℚ) = 1/2 := le_antisymm (not_lt.mp hgt) (not_lt.mp hlt)
      have hlt1000 : ⌊q * 1000⌋ < 1000 := by
        have hq : (⌊q * 1000⌋ : ℚ) < 1000 - 1/4 := by nlinarith
        have hq2 : (⌊q * 1000⌋ : ℚ) < 1000 := hq.trans (by norm_num)
        exact_mod_cast hq2
      have : ((⌊q * 1000⌋ : ℤ) : ℚ) + 1 ≤ 1000 := by exact_mod_cast hlt1000
      push_cast
      nlinarith

/-- Invariant of the selection walk: the accepted list never exceeds the hard
cap, no category exceeds the per-category cap, and every recorded rounded
score lies in `[0, 1]`. -/
theorem selectLoop_bounds (now : ℚ) (maxc : ℕ) :
    ∀ (rest result : List (TopicR × ℚ)) (cc : List Char → ℕ),
      (∀ p ∈ rest, (∀ v, p.1.importance_score = some v → 0 ≤ v ∧ v ≤ 1) ∧
        (∀ u, p.1.updated_at = some u → u ≤ now)) →
      (∀ cat, cc cat = result.countP (fun p => decide (categoryKey p.1 = cat))) →
      result.length ≤ TOP_STORIES_LIMIT →
      (∀ cat, result.countP (fun p => decide (categoryKey p.1 = cat)) ≤ MAX_PER_CATEGORY) →
      (∀ p ∈ result, 0 ≤ p.2 ∧ p.2 ≤ 1) →
      (selectLoop now maxc rest result cc).length ≤ TOP_STORIES_LIMIT ∧
      (∀ cat, (selectLoop now maxc rest result cc).countP
        (fun p => decide (categoryKey p.1 = cat)) ≤ MAX_PER_CATEGORY) ∧
      ∀ p ∈ selectLoop now maxc rest result cc, 0 ≤ p.2 ∧ p.2 ≤ 1
  | [], result, cc => by
    intro _ _ hlen hcat hsc
    exact ⟨hlen, hcat, hsc⟩
  | (t, s) :: rest, result, cc => by
    intro hrest htrack hlen hcat hsc
    simp only [selectLoop]
    by_cases hfull : TOP_STORIES_LIMIT ≤ result.length
    · rw [if_pos hfull]
      exact ⟨hlen, hcat, hsc⟩
    · rw [if_neg hfull]
      by_cases hsat : MAX_PER_CATEGORY ≤ cc (categoryKey t)
      · rw [if_pos hsat]
        exact selectLoop_bounds now maxc rest result cc
          (fun p hp => hrest p (List.mem_cons_of_mem _ hp)) htrack hlen hcat hsc
      · rw [if_neg hsat]
        have hthead := hrest (t, s) (List.mem_cons_self _ _)
        have hscore := calculate_score_bounds now maxc t cc hthead.1 hthead.2
        have hround := pyRound3_bounds _ hscore.1 hscore.2
        refine selectLoop_bounds now maxc rest
          (result ++ [(t, pyRound3 (calculate_score now maxc t cc))]) _
          (fun p hp => hrest p (List.mem_cons_of_mem _ hp)) ?_ ?_ ?_ ?_
        · intro cat
          rw [List.countP_append]
          by_cases hc : cat = categoryKey t
          · subst hc
            simp [htrack]
          · simp [hc, Ne.symm hc, htrack]
        · rw [List.length_append, List.length_cons, List.length_nil]
          exact Nat.succ_le_of_lt (Nat.not_le.mp hfull)
        · intro cat
          rw [List.countP_append]
          by_cases hc : categoryKey t = cat
          · subst hc
            have h15 := Nat.succ_le_of_lt (Nat.not_le.mp hsat)
            rw [htrack (categoryKey t)] at h15
            simpa using h15
          · simpa [hc] using hcat cat
        · intro p hp
          rcases List.mem_append.mp hp with hp | hp
          · exact hsc p hp
          · rcases List.mem_singleton.mp hp with rfl
            exact hround

/-- C3: in every ranking pass of `get_top_topics`, the number of accepted
topics is at most the hard display cap (`TOP_STORIES_LIMIT = 15`), no
category appears more often than the per-category cap
(`MAX_PER_CATEGORY = 15`), and every reported (rounded) ranking score lies in
`[0, 1]` — given the data-model invariants that stored importances lie in
`[0, 1]` and `updated_at` is never in the future. -/
theorem C3_ranking_bounds (now : ℚ) (candidates : List TopicR)
    (himp : ∀ t ∈ candidates, ∀ v, t.importance_score = some v → 0 ≤ v ∧ v ≤ 1)
    (hupd : ∀ t ∈ candidates, ∀ u, t.updated_at = some u → u ≤ now) :
    (get_top_topics now candidates).length ≤ TOP_STORIES_LIMIT ∧
    (∀ cat, (get_top_topics now candidates).countP
      (fun p => decide (categoryKey p.1 = cat)) ≤ MAX_PER_CATEGORY) ∧
    ∀ p ∈ get_top_topics now candidates, 0 ≤ p.2 ∧ p.2 ≤ 1 := by
  unfold get_top_topics
  split
  · refine ⟨by simp [TOP_STORIES_LIMIT], fun cat => by simp, fun p hp => by simp at hp⟩
  · have hmem : ∀ p ∈ (candidates.map
        (fun t => (t, calculate_score now (maxArticleCount candidates) t
          (fun _ => 0)))).insertionSort (fun x y => y.2 ≤ x.2), p.1 ∈ candidates := by
      intro p hp
      have hp2 := (List.perm_insertionSort (fun x y : TopicR × ℚ => y.2 ≤ x.2) _).mem_iff.mp hp
      obtain ⟨t, ht, rfl⟩ := List.mem_map.mp hp2
      exact ht
    have hsel := selectLoop_bounds now (maxArticleCount candidates)
      ((candidates.map (fun t => (t, calculate_score now (maxArticleCount candidates) t
        (fun _ => 0)))).insertionSort (fun x y => y.2 ≤ x.2)) [] (fun _ => 0)
      (fun p hp => ⟨himp p.1 (hmem p hp), hupd p.1 (hmem p hp)⟩)
      (fun cat => by simp)
      (by simp [TOP_STORIES_LIMIT])
      (fun cat => by simp)
      (fun p hp => by simp at hp)
    have hperm := List.perm_insertionSort (fun x y : TopicR × ℚ => y.2 ≤ x.2)
      (selectLoop now (maxArticleCount candidates)
        ((candidates.map (fun t => (t, calculate_score now (maxArticleCount candidates) t
          (fun _ => 0)))).insertionSort (fun x y => y.2 ≤ x.2)) [] (fun _ => 0))
    refine ⟨?_, ?_, ?_⟩
    · rw [hperm.length_eq]
      exact hsel.1
    · intro cat
      rw [hperm.countP_eq]
      exact hsel.2.1 cat
    · intro p hp
      exact hsel.2.2 p (hperm.mem_iff.mp hp)


/-- Witness for C3 at the single-candidate list `[exampleTopic]`. -/
theorem C3_ranking_bounds_witness :
    (∀ t ∈ [exampleTopic], ∀ v, t.importance_score = some v → 0 ≤ v ∧ v ≤ 1) ∧
    (∀ t ∈ [exampleTopic], ∀ u, t.updated_at = some u → u ≤ (3600 : ℚ)) ∧
    ((get_top_topics 3600 [exampleTopic]).length ≤ TOP_STORIES_LIMIT ∧
      (∀ cat, (get_top_topics 3600 [exampleTopic]).countP
        (fun p => decide (categoryKey p.1 = cat)) ≤ MAX_PER_CATEGORY) ∧
      ∀ p ∈ get_top_topics 3600 [exampleTopic], 0 ≤ p.2 ∧ p.2 ≤ 1) := by
  have h1 : ∀ t ∈ [exampleTopic], ∀ v, t.importance_score = some v → 0 ≤ v ∧ v ≤ 1 := by
    intro t ht v hv
    simp only [List.mem_singleton] at ht
    subst ht
    simp only [exampleTopic, Option.some.injEq] at hv
    subst hv
    constructor <;> norm_num [Rat.mkRat_eq_div]
  have h2 : ∀ t ∈ [exampleTopic], ∀ u, t.updated_at = some u → u ≤ (3600 : ℚ) := by
    intro t ht u hu
    simp only [List.mem_singleton] at ht
    subst ht
    simp only [exampleTopic, Option.some.injEq] at hu
    subst hu
    norm_num
  exact ⟨h1, h2, C3_ranking_bounds 3600 [exampleTopic] h1 h2⟩

/-! ## `SemanticGrouper.group_articles` (semantic_grouper.py lines 50-131)
and `TopicAnalyzer.create_topics` (topic_analyzer.py lines 258-359) -/

/-- An analyzed article as fed to the semantic grouper. -/
structure GArticle where
  id : ℕ
  title : List Char
  description : Option (List Char)
  category : Option (List Char)
  topics : List (List Char)
  deriving DecidableEq

/-- One raw group from the parsed LLM JSON (`group.get(...)` access). -/
structure RawGroup where
  title : Option (List Char)
  article_ids : List ℕ
  category : Option (List Char)
  importance : Option ℚ
  deriving DecidableEq

/-- A processed semantic group. -/
structure SemGroup where
  title : List Char
  articles : List GArticle
  category : Option (List Char)
  importance : ℚ
  deriving DecidableEq

/-- The three ways the grouping `complete_json` call can go, seen from its
caller: the provider call raises; the response is not JSON (`complete_json`
then returns `{}`, see C9); or a JSON object with a groups payload. -/
inductive LLMJsonOutcome (β : Type) : Type
  | providerError
  | malformed
  | parsed (value : β)

/-- `self.client.complete_json(...)` followed by `result.get("groups", [])`:
a provider error propagates as an exception, malformed JSON yields `{}` and
hence `[]`, otherwise the parsed groups list. -/
def completeJsonGroups : LLMJsonOutcome (List RawGroup) → Except Unit (List RawGroup)
  | .providerError => .error ()
  | .malformed => .ok []
  | .parsed gs => .ok gs

/-- `SemanticGrouper.group_articles`: fewer analyzed articles than
`min_group_size` give `[]`; the LLM call sits in `try/except` returning `[]`
on any exception; group member ids are resolved against the queried articles
(unresolvable ids dropped) and groups below `min_group_size` after dropping
are discarded. -/
def group_articles (articles : List GArticle) (min_group_size : ℕ)
    (outcome : LLMJsonOutcome (List RawGroup)) : List SemGroup :=
  if articles.length < min_group_size then []
  else
    match completeJsonGroups outcome with
    | .error _ => []
    | .ok groups =>
      groups.filterMap (fun g =>
        let group_arts := g.article_ids.filterMap
          (fun aid => articles.find? (fun a => a.id = aid))
        if min_group_size ≤ group_arts.length then
          some ⟨g.title.getD "News Update".data, group_arts, g.category,
            g.importance.getD (mkRat 1 2)⟩
        else none)

/-- A created `Topic` row, restricted to the fields the claims inspect
(summary/keyword/thumbnail assembly and the per-article links are further
persistence payload built alongside). -/
structure TopicOut where
  title : List Char
  article_count : ℕ
  category : Option (List Char)
  importance_score : ℚ
  deriving DecidableEq

/-- `SemanticGrouper.create_topics_from_groups`: one topic per group (the AI
summary generation inside falls back on its own exceptions — total). -/
def create_topics_from_groups (groups : List SemGroup) : List TopicOut :=
  groups.map (fun g => ⟨g.title, g.articles.length, g.category, g.importance⟩)

/-- The keyword-fallback loop of `create_topics` (lines 302-358): one topic
per cluster.  The title chain (`generate_topic_title_llm` or
`generate_topic_title`, both total — the LLM attempt catches its own
failures, the fallback is `generate_topic_title_fallback`) is abstracted as
`titleOf`; keyword topics get no category and default importance 0.5. -/
def create_topics_from_clusters {α : Type} [DecidableEq α]
    (titleOf : List (KwArticle α) → List Char) (clusters : List (Cluster α)) :
    List TopicOut :=
  clusters.map (fun c => ⟨titleOf c.members, c.members.length, none, mkRat 1 2⟩)

/-- `TopicAnalyzer.create_topics`: after pruning old topics (a persistence
effect outside the modelled state), when the LLM is enabled and available try
semantic grouping — whose provider/parse failures all surface as an empty
group list — and on an empty result, or with the LLM disabled or unavailable,
fall back to keyword clustering.  The `Except` result type exhibits the
exception channel of the `try/except` around the semantic path. -/
def create_topics {α : Type} [DecidableEq α]
    (titleOf : List (KwArticle α) → List Char) (use_llm llm_available : Bool)
    (outcome : LLMJsonOutcome (List RawGroup)) (grouper_articles : List GArticle)
    (recent_articles : List (KwArticle α)) (threshold : ℚ) :
    Except Unit (List TopicOut) :=
  if use_llm && llm_available then
    let groups := group_articles grouper_articles 2 outcome
    if groups ≠ [] then Except.ok (create_topics_from_groups groups)
    else Except.ok (create_topics_from_clusters titleOf
      (cluster_articles threshold recent_articles))
  else
    Except.ok (create_topics_from_clusters titleOf
      (cluster_articles threshold recent_articles))

/-- C1: when the semantic-grouping path fails — provider error, malformed
JSON, or an empty group result — `create_topics` returns successfully (no
exception reaches the caller) with the keyword-clustering fallback's topics;
and whenever recent articles exist, that fallback topic list is non-empty
(every nonempty article list yields at least one cluster). -/
theorem C1_fallback_on_semantic_failure {α : Type} [DecidableEq α]
    (titleOf : List (KwArticle α) → List Char) (use_llm llm_available : Bool)
    (outcome : LLMJsonOutcome (List RawGroup)) (grouper_articles : List GArticle)
    (recent_articles : List (KwArticle α)) (threshold : ℚ)
    (hfail : outcome = .providerError ∨ outcome = .malformed ∨
      group_articles grouper_articles 2 outcome = []) :
    create_topics titleOf use_llm llm_available outcome grouper_articles
        recent_articles threshold =
      Except.ok (create_topics_from_clusters titleOf
        (cluster_articles threshold recent_articles)) ∧
    (recent_articles ≠ [] →
      create_topics_from_clusters titleOf
        (cluster_articles threshold recent_articles) ≠ []) := by
  have hgroups : group_articles grouper_articles 2 outcome = [] := by
    rcases hfail with rfl | rfl | h
    · unfold group_articles completeJsonGroups
      split <;> rfl
    · unfold group_articles completeJsonGroups
      split <;> simp
    · exact h
  constructor
  · unfold create_topics
    cases hui : use_llm && llm_available
    · simp
    · simp [hgroups]
  · intro hne
    cases recent_articles with
    | nil => exact absurd rfl hne
    | cons a rest =>
      simp [create_topics_from_clusters, cluster_articles, clusterLoop]

/-- Witness for C1: a provider error during semantic grouping with one
recent article still yields exactly one keyword-fallback topic. -/
theorem C1_fallback_witness :
    ((LLMJsonOutcome.providerError : LLMJsonOutcome (List RawGroup)) =
        .providerError ∨
      (LLMJsonOutcome.providerError : LLMJsonOutcome (List RawGroup)) = .malformed ∨
      group_articles [] 2 .providerError = []) ∧
    (create_topics (fun _ => "News Update".data) true true .providerError []
        ([⟨0, {1}⟩] : List (KwArticle ℕ)) 0 =
      Except.ok (create_topics_from_clusters (fun _ => "News Update".data)
        (cluster_articles 0 ([⟨0, {1}⟩] : List (KwArticle ℕ)))) ∧
      (([⟨0, {1}⟩] : List (KwArticle ℕ)) ≠ [] →
        create_topics_from_clusters (fun _ => "News Update".data)
          (cluster_articles 0 ([⟨0, {1}⟩] : List (KwArticle ℕ))) ≠ [])) ∧
    create_topics (fun _ => "News Update".data) true true .providerError []
        ([⟨0, {1}⟩] : List (KwArticle ℕ)) 0 =
      Except.ok [⟨"News Update".data, 1, none, mkRat 1 2⟩] :=
  ⟨Or.inl rfl,
    C1_fallback_on_semantic_failure (fun _ => "News Update".data) true true
      .providerError [] [⟨0, {1}⟩] 0 (Or.inl rfl),
    rfl⟩

end NewsApi
